import Mathlib

/-!
Verification of the `matcher` package (github.com/kuwa72/matcher): a shallow
embedding of the query evaluator in `parser.go` and the facade in `matcher.go`,
together with theorems settling the specification claims.

Modelling conventions:
* Go `float64` query literals and numeric runtime values are modelled by `ℚ`
  (the claims under study concern the dispatch and coercion structure, not
  binary floating-point rounding).
* A Go runtime value stored in a `Context` (`map[string]interface{}`) is a
  `GoValue`: a numeric value tagged with its dynamic Go kind, a string, or a
  bool — the record model stated in the specification.
* A Go `(bool, error)` return is an `EvalResult`; every error return in the
  source pairs the error with `false`, so the bool is omitted in the error
  case.  A failed type assertion (`x.(T)` on a value whose dynamic type is not
  `T`) aborts the call with a runtime panic, modelled by
  `EvalResult.runtimePanic actual expected`.
* The compiled regular expression inside a `RegexVal` is modelled by its
  `MatchString` function `String → Bool` (the regex engine is external).
-/

namespace matcher

/-- The dynamic kind of a numeric Go value stored in a context
(`interface{}`). -/
inductive NumKind where
  | float32 | float64
  | int | int8 | int16 | int32 | int64
  | uint | uint8 | uint16 | uint32 | uint64
  deriving DecidableEq

/-- The Go type name of a numeric kind, as printed by the `%T` verb. -/
def NumKind.goName : NumKind → String
  | .float32 => "float32"
  | .float64 => "float64"
  | .int => "int"
  | .int8 => "int8"
  | .int16 => "int16"
  | .int32 => "int32"
  | .int64 => "int64"
  | .uint => "uint"
  | .uint8 => "uint8"
  | .uint16 => "uint16"
  | .uint32 => "uint32"
  | .uint64 => "uint64"

/-- A dynamically typed runtime value held in a record field: a number of some
Go numeric kind, a string, or a bool (the record model of the spec). -/
inductive GoValue where
  | num (kind : NumKind) (val : ℚ)
  | str (s : String)
  | bool (b : Bool)
  deriving DecidableEq

/-- The Go type name of a runtime value, as printed by the `%T` verb. -/
def GoValue.goType : GoValue → String
  | .num k _ => k.goName
  | .str _ => "string"
  | .bool _ => "bool"

/-- `Context` is the record a query is evaluated against:
`type Context map[string]interface{}`, modelled as an association list. -/
abbrev Context := List (String × GoValue)

/-- Map lookup `ctx[sym]` (`v, ok := ctx[sym]`). -/
def Context.find : Context → String → Option GoValue
  | [], _ => none
  | (k, v) :: rest, s => if k = s then some v else Context.find rest s

/-- The errors produced by the evaluator and the facade, one constructor per
`fmt.Errorf`/`errors.New` site of the source, carrying the data interpolated
into the message where a claim depends on it. -/
inductive GoErr where
  /-- "is not bool value:%s" — `strconv.ParseBool` failed on the field. -/
  | notBoolValue (s : String)
  /-- "cannot apply regex to non-string value: %T". -/
  | cannotApplyRegexToNonString (ty : String)
  /-- "cannot use OP operator with regex pattern". -/
  | cannotUseOpWithRegex (op : String)
  /-- "boolean did not compare by greater/less then". -/
  | booleanNotGreaterLess
  /-- "unknown value type: %#v" — default case of the value-kind switch. -/
  | unknownValueType
  /-- "unknown operator: %s". -/
  | unknownOperator (op : String)
  /-- "failed to complete comparison, type: %T: %#v" — reached when an inner
  runtime-type switch falls through with no matching case. -/
  | failedToCompleteComparison (ty : String)
  /-- "evaluating OR condition: %w" — wrap added by `Expression.Eval`. -/
  | wrapOr (e : GoErr)
  /-- "evaluating AND condition: %w" — wrap added by `OrCondition.Eval`. -/
  | wrapAnd (e : GoErr)
  /-- "nil context provided" — `Matcher.Test` on a nil record pointer. -/
  | nilContext
  /-- "nil context.Context provided" — `Matcher.TestWithContext`. -/
  | nilGoContext
  /-- The cancellation error `ctx.Err()` returned when the context is done. -/
  | ctxCanceled
  /-- "no regex pattern to capture". -/
  | noRegexToCapture
  /-- "invalid regex pattern: %s" — raw literal shorter than `/x/`. -/
  | invalidRegexPattern (raw : String)
  /-- "regex pattern too long: %d characters (max 1000)". -/
  | regexTooLong (n : Nat)
  /-- "regex pattern too complex: %d complexity score (max 20)". -/
  | regexTooComplex (n : Nat)
  /-- "invalid regex pattern: %w" — `regexp.Compile` returned an error. -/
  | invalidRegexCompile
  /-- "regex compilation timed out: pattern may cause catastrophic
  backtracking". -/
  | regexCompileTimeout
  deriving DecidableEq

/-- The outcome of a Go call returning `(bool, error)`.  Every error return in
the source carries `false` as the bool, so it is omitted.  `runtimePanic
actual expected` models the runtime panic of a failed type assertion
("interface conversion: interface \x7b\x7d is ACTUAL, not EXPECTED"), which
aborts the call without returning. -/
inductive EvalResult where
  | ok (b : Bool)
  | err (e : GoErr)
  | runtimePanic (actual expected : String)
  deriving DecidableEq

/-- A compiled regex literal: the pattern text and the compiled matcher,
modelled by its `MatchString` function. -/
structure RegexVal where
  Pattern : String
  Regexp : String → Bool

/-- A parsed query literal.  The source `Value` struct has one pointer per
variant with exactly one non-nil (a spec invariant of parsed trees); the
tagged union realises that invariant. -/
inductive Value where
  | float (f : ℚ)
  | str (s : String)
  | regex (r : RegexVal)
  | boolean (b : Bool)
  | null

/-- A comparison: operator text plus literal value. -/
structure Compare where
  Operator : String
  Value : Value

/-- A predicate: field name plus comparison. -/
structure Predicate where
  Symbol : String
  Compare : Compare

/-- `strconv.ParseBool`: accepts 1, t, T, TRUE, true, True, 0, f, F, FALSE,
false, False. -/
def parseBool (s : String) : Option Bool :=
  if s = "1" ∨ s = "t" ∨ s = "T" ∨ s = "TRUE" ∨ s = "true" ∨ s = "True" then
    some true
  else if s = "0" ∨ s = "f" ∨ s = "F" ∨ s = "FALSE" ∨ s = "false" ∨ s = "False" then
    some false
  else
    none

/-- The digit character 0. -/
def zeroChar : Char := '0'

/-- Models `fmt.Sprintf("%f", x)`: decimal notation with six fractional
digits.  Decimal rounding is to the nearest multiple of 10⁻⁶ (the source
formats a binary float with ties broken to even; the tie case is immaterial
to every claim, none of which exercises number-to-string formatting). -/
def formatFloat (x : ℚ) : String :=
  let n : ℤ := Int.floor (x * 1000000 + 1 / 2)
  let sign := if n < 0 then "-" else ""
  let a := n.natAbs
  let ip := a / 1000000
  let fp := a % 1000000
  let fpStr := Nat.repr fp
  let pad := String.mk (List.replicate (6 - fpStr.length) zeroChar)
  sign ++ Nat.repr ip ++ "." ++ pad ++ fpStr

/-- Lexicographic comparison of character sequences by code point, which
agrees with Go's byte-wise string ordering on valid UTF-8 text. -/
def goCharsLt : List Char → List Char → Bool
  | _, [] => false
  | [], _ :: _ => true
  | a :: s, b :: t =>
    if a.toNat < b.toNat then true
    else if b.toNat < a.toNat then false
    else goCharsLt s t

/-- Go's string comparison `x < y`. -/
def goStringLt (x y : String) : Bool := goCharsLt x.toList y.toList

/-- The comparison dispatch of `Predicate.Eval` (parser.go lines 133–314),
given the operator, the literal value and the runtime field value.  The
structure mirrors the source: an outer switch on the operator, a switch on
the populated value variant, and an inner switch on the dynamic type of the
field.  Go's grouped type-switch cases (`case float32, float64:` and
`case int, int8, …, uint64:`) do not narrow `x`, so the bare assertions
`x.(float64)`, `x.(int)` and `x.(int64)` inside them panic whenever the
dynamic kind differs from the asserted one. -/
def evalCompare (o : String) (v : Value) (ctxVal : GoValue) : EvalResult :=
  if o = "=" then
    match v with
    | .float f =>
      match ctxVal with
      | .num .float64 x => .ok (decide (x = f))
      | .num .float32 _ => .runtimePanic "float32" "float64"
      | .num .int x => .ok (decide (x = f))
      | .num k _ => .runtimePanic k.goName "int"
      | .str s => .ok (decide (s = formatFloat f))
      | .bool b => .ok ((b && !(decide (f = 0))) || (!b && decide (f = 0)))
    | .str s => .ok (decide (ctxVal = .str s))
    | .regex r =>
      match ctxVal with
      | .str s => .ok (r.Regexp s)
      | other => .err (.cannotApplyRegexToNonString other.goType)
    | .boolean vb =>
      match ctxVal with
      | .num .int x => .ok ((decide (x = 0) && !vb) || (!(decide (x = 0)) && vb))
      | .num k _ => .err (.failedToCompleteComparison k.goName)
      | .bool b => .ok (decide (b = vb))
      | .str s =>
        match parseBool s with
        | some b => .ok (decide (b = vb))
        | none => .err (.notBoolValue s)
    | .null => .err .unknownValueType
  else if o = "<>" ∨ o = "!=" then
    match v with
    | .float f =>
      match ctxVal with
      | .num .float64 x => .ok (decide (x ≠ f))
      | .num .float32 _ => .runtimePanic "float32" "float64"
      | .num .int x => .ok (decide (x ≠ f))
      | .num k _ => .runtimePanic k.goName "int"
      | .str s => .ok (decide (s ≠ formatFloat f))
      | .bool b => .ok (!((b && !(decide (f = 0))) || (!b && decide (f = 0))))
    | .str s => .ok (decide (ctxVal ≠ .str s))
    | .regex r =>
      match ctxVal with
      | .str s => .ok (!(r.Regexp s))
      | other => .err (.cannotApplyRegexToNonString other.goType)
    | .boolean vb =>
      match ctxVal with
      | .num .int x => .ok (!((decide (x = 0) && !vb) || (!(decide (x = 0)) && vb)))
      | .num k _ => .err (.failedToCompleteComparison k.goName)
      | .bool b => .ok (decide (b ≠ vb))
      | .str s =>
        match parseBool s with
        | some b => .ok (decide (b ≠ vb))
        | none => .err (.notBoolValue s)
    | .null => .err .unknownValueType
  else if o = ">" then
    match v with
    | .float f =>
      match ctxVal with
      | .num .float64 x => .ok (decide (x > f))
      | .num .float32 _ => .runtimePanic "float32" "float64"
      | .num .int64 x => .ok (decide (x > f))
      | .num k _ => .runtimePanic k.goName "int64"
      | .str s => .ok (goStringLt (formatFloat f) s)
      | .bool _ => .err .booleanNotGreaterLess
    | .str vs =>
      match ctxVal with
      | .str s => .ok (goStringLt vs s)
      | other => .runtimePanic other.goType "string"
    | .regex _ => .err (.cannotUseOpWithRegex ">")
    | .boolean _ => .err .booleanNotGreaterLess
    | .null => .err .unknownValueType
  else if o = ">=" then
    match v with
    | .float f =>
      match ctxVal with
      | .num .float64 x => .ok (decide (x ≥ f))
      | .num .float32 _ => .runtimePanic "float32" "float64"
      | .num .int64 x => .ok (decide (x ≥ f))
      | .num k _ => .runtimePanic k.goName "int64"
      | .str s => .ok (!(goStringLt s (formatFloat f)))
      | .bool _ => .err .booleanNotGreaterLess
    | .str vs =>
      match ctxVal with
      | .str s => .ok (!(goStringLt s vs))
      | other => .runtimePanic other.goType "string"
    | .regex _ => .err (.cannotUseOpWithRegex ">=")
    | .boolean _ => .err .booleanNotGreaterLess
    | .null => .err .unknownValueType
  else if o = "<" then
    match v with
    | .float f =>
      match ctxVal with
      | .num .float64 x => .ok (decide (x < f))
      | .num .float32 _ => .runtimePanic "float32" "float64"
      | .num .int64 x => .ok (decide (x < f))
      | .num k _ => .runtimePanic k.goName "int64"
      | .str s => .ok (goStringLt s (formatFloat f))
      | .bool _ => .err .booleanNotGreaterLess
    | .str vs =>
      match ctxVal with
      | .str s => .ok (goStringLt s vs)
      | other => .runtimePanic other.goType "string"
    | .regex _ => .err (.cannotUseOpWithRegex "<")
    | .boolean _ => .err .booleanNotGreaterLess
    | .null => .err .unknownValueType
  else if o = "<=" then
    match v with
    | .float f =>
      match ctxVal with
      | .num .float64 x => .ok (decide (x ≤ f))
      | .num .float32 _ => .runtimePanic "float32" "float64"
      | .num .int64 x => .ok (decide (x ≤ f))
      | .num k _ => .runtimePanic k.goName "int64"
      | .str s => .ok (!(goStringLt (formatFloat f) s))
      | .bool _ => .err .booleanNotGreaterLess
    | .str vs =>
      match ctxVal with
      | .str s => .ok (!(goStringLt vs s))
      | other => .runtimePanic other.goType "string"
    | .regex _ => .err (.cannotUseOpWithRegex "<=")
    | .boolean _ => .err .booleanNotGreaterLess
    | .null => .err .unknownValueType
  else
    .err (.unknownOperator o)

/-- `Predicate.Eval`: look the symbol up in the context; an absent field is
`(false, nil)`; a present field dispatches to the comparison.  The defensive
nil-pointer checks of the source (`p == nil || p.Compare == nil`) are
unreachable under the value semantics of the embedding. -/
def Predicate.Eval (p : Predicate) (ctx : Context) : EvalResult :=
  match Context.find ctx p.Symbol with
  | none => .ok false
  | some ctxVal => evalCompare p.Compare.Operator p.Compare.Value ctxVal

mutual

/-- A parsed query: an ordered sequence of OR conditions. -/
inductive Expression where
  | mk (Or : List OrCondition) : Expression

/-- One OR term: an ordered sequence of AND conditions. -/
inductive OrCondition where
  | mk (And : List Condition) : OrCondition

/-- A condition: a parenthesized nested expression or a predicate; exactly
one variant is populated (the non-nil-pointer invariant of parsed trees). -/
inductive Condition where
  | nested (e : Expression) : Condition
  | pred (p : Predicate) : Condition

end

mutual

/-- `Expression.Eval`: `(false, nil)` for a nil or empty expression, else the
OR loop over the conditions. -/
def Expression.Eval (e : Expression) (ctx : Context) : EvalResult :=
  match e with
  | .mk ors => if ors.isEmpty then .ok false else evalOrLoop ors ctx

/-- The loop body of `Expression.Eval`: evaluate each OR condition in order;
an error returns wrapped ("evaluating OR condition: %w"); the first `true`
returns `true`; falling off the loop returns `false`. -/
def evalOrLoop (l : List OrCondition) (ctx : Context) : EvalResult :=
  match l with
  | [] => .ok false
  | x :: rest =>
    match OrCondition.Eval x ctx with
    | .err e => .err (.wrapOr e)
    | .runtimePanic a b => .runtimePanic a b
    | .ok true => .ok true
    | .ok false => evalOrLoop rest ctx

/-- `OrCondition.Eval`: `(false, nil)` for a nil or empty condition list,
else the AND loop. -/
def OrCondition.Eval (oc : OrCondition) (ctx : Context) : EvalResult :=
  match oc with
  | .mk ands => if ands.isEmpty then .ok false else evalAndLoop ands ctx

/-- The loop body of `OrCondition.Eval`: evaluate each AND condition in
order; an error returns wrapped ("evaluating AND condition: %w"); the first
`false` returns `false`; falling off the loop returns `true`. -/
def evalAndLoop (l : List Condition) (ctx : Context) : EvalResult :=
  match l with
  | [] => .ok true
  | x :: rest =>
    match Condition.Eval x ctx with
    | .err e => .err (.wrapAnd e)
    | .runtimePanic a b => .runtimePanic a b
    | .ok false => .ok false
    | .ok true => evalAndLoop rest ctx

/-- `Condition.Eval`: delegate to the nested expression or the predicate.
The defensive branches for nil pointers are unreachable under the
exactly-one-variant invariant realised by the tagged union. -/
def Condition.Eval (c : Condition) (ctx : Context) : EvalResult :=
  match c with
  | .nested e => Expression.Eval e ctx
  | .pred p => Predicate.Eval p ctx

end

/-- A compiled matcher: the parsed expression and the debug flag.  The
`Parser` field of the source is the participle parser object; it takes no
part in evaluation and is omitted.  The debug flag only pretty-prints the
tree and does not alter the result. -/
structure Matcher where
  Expression : Expression
  Debug : Bool

/-- `Matcher.Test`: reject a nil record pointer with "nil context provided",
else evaluate the expression against the record. -/
def Matcher.Test (m : Matcher) (c : Option Context) : EvalResult :=
  match c with
  | none => .err .nilContext
  | some ctx => m.Expression.Eval ctx

/-- A `context.Context` as observed by the single cancellation check of
`TestWithContext`: whether its done channel is ready at the call boundary.
`ctx.Err()` for a done context is modelled by `GoErr.ctxCanceled`. -/
structure GoContext where
  done : Bool

/-- `Matcher.TestWithContext`: reject a nil `context.Context`; return
`(false, ctx.Err())` if the context is already done (the `select` with a
`default` branch checks the done channel exactly once, without blocking);
otherwise delegate to `Matcher.Test`. -/
def Matcher.TestWithContext (m : Matcher) (goCtx : Option GoContext)
    (c : Option Context) : EvalResult :=
  match goCtx with
  | none => .err .nilGoContext
  | some g => if g.done then .err .ctxCanceled else m.Test c

/-- MaxRegexPatternLength: the maximum regex pattern length (source
constant). -/
def MaxRegexPatternLength : Nat := 1000

/-- MaxRegexComplexity: the maximum regex complexity score (source
constant). -/
def MaxRegexComplexity : Nat := 20

/-- The open-brace character, written by code point to keep it out of string
literals. -/
def openBraceChar : Char := Char.ofNat 123

/-- The close-brace character, written by code point. -/
def closeBraceChar : Char := Char.ofNat 125

/-- Occurrences of a character in a string (`strings.Count` with a
single-character substring). -/
def countChar (s : String) (c : Char) : Nat :=
  (s.toList.filter (fun x => x = c)).length

/-- The complexity score computed by `RegexVal.Capture`: occurrences of
the characters asterisk, plus, open brace, question mark and vertical bar.
The close brace is not counted by the source. -/
def codeComplexity (s : String) : Nat :=
  countChar s '*' + countChar s '+' + countChar s openBraceChar +
    countChar s '?' + countChar s '|'

/-- Left-to-right non-overlapping replacement of the two-character sequence
backslash-slash by slash: `strings.ReplaceAll(pattern, "\\/", "/")`. -/
def replaceEscapedSlash : List Char → List Char
  | [] => []
  | '\\' :: '/' :: rest => '/' :: replaceEscapedSlash rest
  | c :: rest => c :: replaceEscapedSlash rest

/-- The pattern text extracted from a raw regex token: strip the delimiting
slashes (first and last character) and unescape `\/` to `/`.  Byte positions
coincide with character positions for the ASCII-delimited literals the lexer
produces. -/
def extractPattern (raw : String) : String :=
  String.mk (replaceEscapedSlash ((raw.toList.drop 1).dropLast))

/-- The outcome of the time-boxed `regexp.Compile` step of
`RegexVal.Capture`: the goroutine delivered a compiled matcher, the
goroutine delivered a compile error, or the ≈100ms deadline elapsed first.
The compiler itself is external; `Capture` is parametrised by its outcome. -/
inductive CompileOutcome where
  | ok (matchString : String → Bool)
  | compileError
  | timeout

/-- `RegexVal.Capture`: validate and compile a raw regex token.  Reject an
empty capture list and a raw literal shorter than `/x/`; extract and
unescape the pattern; enforce the length cap, then the complexity cap; then
race `regexp.Compile` against the ≈100ms deadline, failing on a compile
error or a timeout and otherwise producing the regex value carrying the
compiled matcher. -/
def RegexVal.Capture (values : List String) (compile : String → CompileOutcome) :
    Except GoErr RegexVal :=
  match values with
  | [] => .error .noRegexToCapture
  | raw :: _ =>
    if raw.length < 3 then .error (.invalidRegexPattern raw)
    else
      let pattern := extractPattern raw
      if pattern.length > MaxRegexPatternLength then
        .error (.regexTooLong pattern.length)
      else if codeComplexity pattern > MaxRegexComplexity then
        .error (.regexTooComplex (codeComplexity pattern))
      else
        match compile pattern with
        | .ok m => .ok ⟨pattern, m⟩
        | .compileError => .error .invalidRegexCompile
        | .timeout => .error .regexCompileTimeout

/-- Modelled from the spec: the complexity score as the spec words it —
occurrences of asterisk, plus, open brace, close brace, question mark and
vertical bar.  It differs from `codeComplexity` in counting the close
brace, which the source does not count. -/
def specComplexity (s : String) : Nat :=
  countChar s '*' + countChar s '+' + countChar s openBraceChar +
    countChar s closeBraceChar + countChar s '?' + countChar s '|'

/-- A pattern of 21 close braces: 21 occurrences of the spec's repetition
operator set, zero occurrences of the source's. -/
def braces21 : String := String.mk (List.replicate 21 closeBraceChar)

/-- The raw regex token delimiting `braces21` with slashes. -/
def raw21 : String := "/" ++ braces21 ++ "/"

/-- A compile oracle delivering a matcher immediately.  It models
`regexp.Compile` on patterns it accepts quickly — in particular on
`braces21`, since Go's regex syntax treats each unmatched close brace as a
literal character and the pattern is trivial to compile. -/
def compileOk : String → CompileOutcome := fun _ => .ok (fun _ => false)

/-- A raw regex token whose pattern is 21 asterisks: over the complexity cap
under both the source's count and the spec's. -/
def stars21raw : String := "/" ++ String.mk (List.replicate 21 '*') ++ "/"

/-- The OR loop skips a prefix of terms that all evaluate to `(false, nil)`. -/
theorem evalOrLoop_append_of_false (ctx : Context) (pre rest : List OrCondition)
    (h : ∀ y ∈ pre, OrCondition.Eval y ctx = .ok false) :
    evalOrLoop (pre ++ rest) ctx = evalOrLoop rest ctx := by
  induction pre with
  | nil => simp
  | cons a l ih =>
    have ha := h a (List.mem_cons_self a l)
    simp only [List.cons_append, evalOrLoop, ha]
    exact ih fun y hy => h y (List.mem_cons_of_mem a hy)

/-- An OR loop over terms that all evaluate to `(false, nil)` returns
`(false, nil)`. -/
theorem evalOrLoop_of_all_false (ctx : Context) (l : List OrCondition)
    (h : ∀ y ∈ l, OrCondition.Eval y ctx = .ok false) :
    evalOrLoop l ctx = .ok false := by
  have hl := evalOrLoop_append_of_false ctx l [] h
  simpa [evalOrLoop] using hl

/-- The AND loop skips a prefix of conditions that all evaluate to
`(true, nil)`. -/
theorem evalAndLoop_append_of_true (ctx : Context) (pre rest : List Condition)
    (h : ∀ y ∈ pre, Condition.Eval y ctx = .ok true) :
    evalAndLoop (pre ++ rest) ctx = evalAndLoop rest ctx := by
  induction pre with
  | nil => simp
  | cons a l ih =>
    have ha := h a (List.mem_cons_self a l)
    simp only [List.cons_append, evalAndLoop, ha]
    exact ih fun y hy => h y (List.mem_cons_of_mem a hy)

/-- An AND loop over conditions that all evaluate to `(true, nil)` returns
`(true, nil)`. -/
theorem evalAndLoop_of_all_true (ctx : Context) (l : List Condition)
    (h : ∀ y ∈ l, Condition.Eval y ctx = .ok true) :
    evalAndLoop l ctx = .ok true := by
  have hl := evalAndLoop_append_of_true ctx l [] h
  simpa [evalAndLoop] using hl

/-- If the AND loop returns `(true, nil)`, every condition in the list
evaluated to `(true, nil)`. -/
theorem evalAndLoop_eq_true_forall (ctx : Context) (l : List Condition)
    (h : evalAndLoop l ctx = .ok true) : ∀ y ∈ l, Condition.Eval y ctx = .ok true := by
  induction l with
  | nil => intro y hy; simp at hy
  | cons a t ih =>
    intro y hy
    by_cases ha : Condition.Eval a ctx = .ok true
    · rcases List.mem_cons.mp hy with rfl | hy'
      · exact ha
      · exact ih (by simpa only [evalAndLoop, ha] using h) y hy'
    · exfalso
      rcases hc : Condition.Eval a ctx with b | e | ⟨p, q⟩
      · cases b
        · simp [evalAndLoop, hc] at h
        · exact ha hc
      · simp [evalAndLoop, hc] at h
      · simp [evalAndLoop, hc] at h

/-- `Expression.Eval` agrees with the OR loop on every condition list (for
the empty list both return `(false, nil)`). -/
theorem expressionEval_eq_loop (ors : List OrCondition) (ctx : Context) :
    Expression.Eval (.mk ors) ctx = evalOrLoop ors ctx := by
  cases ors with
  | nil => simp [Expression.Eval, evalOrLoop]
  | cons a t => simp [Expression.Eval]

/-- `OrCondition.Eval` agrees with the AND loop on every nonempty condition
list. -/
theorem orConditionEval_ne_nil (l : List Condition) (ctx : Context) (h : l ≠ []) :
    OrCondition.Eval (.mk l) ctx = evalAndLoop l ctx := by
  cases l with
  | nil => exact absurd rfl h
  | cons a t => simp [OrCondition.Eval]

/-- C1: `Expression.Eval` OR-reduces left to right — the first OR condition
evaluating to `(true, nil)` after a prefix of `(false, nil)` terms makes the
whole expression `(true, nil)` whatever follows it (later terms are not
evaluated: the result is independent of them); all-false lists yield
`(false, nil)`; the first error after a false prefix is propagated, wrapped
with the "evaluating OR condition" context, with the terms after it
irrelevant.  `OrCondition.Eval` AND-reduces: the first `(false, nil)`
condition after a true prefix makes the term `(false, nil)` whatever
follows; the first error is propagated wrapped with the "evaluating AND
condition" context; a nonempty all-true list yields `(true, nil)`; and
`(true, nil)` is returned only when every condition evaluated to
`(true, nil)`. -/
theorem c1_or_and_short_circuit (ctx : Context) :
    (∀ pre x post, (∀ y ∈ pre, OrCondition.Eval y ctx = .ok false) →
        OrCondition.Eval x ctx = .ok true →
        Expression.Eval (.mk (pre ++ x :: post)) ctx = .ok true)
  ∧ (∀ l, (∀ y ∈ l, OrCondition.Eval y ctx = .ok false) →
        Expression.Eval (.mk l) ctx = .ok false)
  ∧ (∀ pre x post e, (∀ y ∈ pre, OrCondition.Eval y ctx = .ok false) →
        OrCondition.Eval x ctx = .err e →
        Expression.Eval (.mk (pre ++ x :: post)) ctx = .err (.wrapOr e))
  ∧ (∀ pre x post, (∀ y ∈ pre, Condition.Eval y ctx = .ok true) →
        Condition.Eval x ctx = .ok false →
        OrCondition.Eval (.mk (pre ++ x :: post)) ctx = .ok false)
  ∧ (∀ pre x post e, (∀ y ∈ pre, Condition.Eval y ctx = .ok true) →
        Condition.Eval x ctx = .err e →
        OrCondition.Eval (.mk (pre ++ x :: post)) ctx = .err (.wrapAnd e))
  ∧ (∀ l, l ≠ [] → (∀ y ∈ l, Condition.Eval y ctx = .ok true) →
        OrCondition.Eval (.mk l) ctx = .ok true)
  ∧ (∀ l, OrCondition.Eval (.mk l) ctx = .ok true →
        ∀ y ∈ l, Condition.Eval y ctx = .ok true) := by
  refine ⟨?_, ?_, ?_, ?_, ?_, ?_, ?_⟩
  · intro pre x post hpre hx
    rw [expressionEval_eq_loop, evalOrLoop_append_of_false ctx pre _ hpre]
    simp [evalOrLoop, hx]
  · intro l h
    rw [expressionEval_eq_loop]
    exact evalOrLoop_of_all_false ctx l h
  · intro pre x post e hpre hx
    rw [expressionEval_eq_loop, evalOrLoop_append_of_false ctx pre _ hpre]
    simp [evalOrLoop, hx]
  · intro pre x post hpre hx
    rw [orConditionEval_ne_nil _ _ (by simp), evalAndLoop_append_of_true ctx pre _ hpre]
    simp [evalAndLoop, hx]
  · intro pre x post e hpre hx
    rw [orConditionEval_ne_nil _ _ (by simp), evalAndLoop_append_of_true ctx pre _ hpre]
    simp [evalAndLoop, hx]
  · intro l hne h
    rw [orConditionEval_ne_nil _ _ hne]
    exact evalAndLoop_of_all_true ctx l h
  · intro l h
    cases l with
    | nil => intro y hy; simp at hy
    | cons a t =>
      rw [orConditionEval_ne_nil _ _ (by simp)] at h
      exact evalAndLoop_eq_true_forall ctx _ h

/-- Witness for C1: in `a=1 OR a=NULL` against the record `a ↦ 1.0`, the
first OR term is true, so the expression is `(true, nil)` even though the
second term would error (a NULL comparison on a present field) had it been
evaluated. -/
theorem c1_or_and_short_circuit_witness :
    Expression.Eval
      (.mk [.mk [.pred ⟨"a", ⟨"=", .float 1⟩⟩], .mk [.pred ⟨"a", ⟨"=", .null⟩⟩]])
      [("a", .num .float64 1)] = .ok true := by
  have h := (c1_or_and_short_circuit [("a", .num .float64 1)]).1
    [] (.mk [.pred ⟨"a", ⟨"=", .float 1⟩⟩]) [.mk [.pred ⟨"a", ⟨"=", .null⟩⟩]]
    (by simp) (by decide)
  simpa using h

/-- C3: for every predicate and every record in which the predicate's field
name is absent, `Predicate.Eval` returns `(false, nil)` — a non-match and
never an error — regardless of the comparison operator and value kind. -/
theorem c3_missing_field (p : Predicate) (ctx : Context)
    (h : Context.find ctx p.Symbol = none) :
    Predicate.Eval p ctx = .ok false := by
  simp [Predicate.Eval, h]

/-- Witness for C3: the spec's own example, `missing=1` against the record
mapping only `a`, yields `(false, nil)`. -/
theorem c3_missing_field_witness :
    Predicate.Eval ⟨"missing", ⟨"=", .float 1⟩⟩ [("a", .num .float64 5)] = .ok false :=
  c3_missing_field _ _ (by decide)

/-- C2, failing inputs: the claim states that every numeric field kind is
coerced to float and compared without error, for every operator.  The code
instead panics on a failed type assertion for most kinds: the ordering
branch asserts `x.(int64)`, so a plain `int` field panics; the equality
branch asserts `x.(int)`, so an `int8` field panics; the grouped case
`float32, float64` asserts `x.(float64)`, so a `float32` field panics.  The
first input is the README's own usage example (`b>5` with `b` an `int`). -/
theorem c2_numeric_assertion_panics :
    Predicate.Eval ⟨"b", ⟨">", .float 5⟩⟩ [("b", .num .int 10)] =
      .runtimePanic "int" "int64"
  ∧ Predicate.Eval ⟨"b", ⟨"=", .float 5⟩⟩ [("b", .num .int8 5)] =
      .runtimePanic "int8" "int"
  ∧ Predicate.Eval ⟨"b", ⟨"=", .float 5⟩⟩ [("b", .num .float32 5)] =
      .runtimePanic "float32" "float64" := by
  decide

/-- C7, failing input: the claim states that an ordering comparison against
a string literal returns a type error when the field is a boolean; the code
instead executes the unchecked assertion `ctxVal.(string)`, which panics on
a bool field (the parallel numeric-literal branch returns the "boolean did
not compare" error, showing the intended behavior). -/
theorem c7_bool_field_string_ordering_panics :
    Predicate.Eval ⟨"a", ⟨">", .str "x"⟩⟩ [("a", .bool true)] =
      .runtimePanic "bool" "string"
  ∧ Predicate.Eval ⟨"a", ⟨"=", .str "x"⟩⟩ [("a", .bool true)] = .ok false
  ∧ Predicate.Eval ⟨"a", ⟨">", .str "b"⟩⟩ [("a", .str "c")] = .ok true := by
  decide

/-- C6, counterexample: the claim states that a numeric field compares
against a boolean literal by truthiness, but the inner type switch handles
only the Go kind `int`; a `float64` field (the kind every JSON-decoded
number has) falls through to the generic comparison-failure error instead
of yielding the truthiness result `true` for the nonzero value 5/2. -/
theorem c6_float_field_boolean_counterexample :
    Predicate.Eval ⟨"a", ⟨"=", .boolean true⟩⟩ [("a", .num .float64 (5 / 2))] =
      .err (.failedToCompleteComparison "float64")
  ∧ Predicate.Eval ⟨"a", ⟨"=", .boolean true⟩⟩ [("a", .num .float64 (5 / 2))] ≠ .ok true := by
  decide

/-- C6, amended: comparing a field against a boolean literal with `=`
compares by truthiness only when the field has Go kind `int`; every other
numeric kind falls through to the generic "failed to complete comparison"
error; a boolean field compares by direct equality; a string field is
parsed with `strconv.ParseBool`, an unparsable string being an error;
`<>`/`!=` negate the `=` result; and every ordering operator returns the
"boolean did not compare" error. -/
theorem c6_boolean_value_amended (sym : String) (ctx : Context) (vb : Bool) :
    (∀ x : ℚ, Context.find ctx sym = some (.num .int x) →
        Predicate.Eval ⟨sym, ⟨"=", .boolean vb⟩⟩ ctx = .ok (decide (x ≠ 0) == vb)
      ∧ Predicate.Eval ⟨sym, ⟨"<>", .boolean vb⟩⟩ ctx = .ok (!(decide (x ≠ 0) == vb))
      ∧ Predicate.Eval ⟨sym, ⟨"!=", .boolean vb⟩⟩ ctx = .ok (!(decide (x ≠ 0) == vb)))
  ∧ (∀ k x, k ≠ NumKind.int → Context.find ctx sym = some (.num k x) →
        Predicate.Eval ⟨sym, ⟨"=", .boolean vb⟩⟩ ctx =
          .err (.failedToCompleteComparison k.goName)
      ∧ Predicate.Eval ⟨sym, ⟨"<>", .boolean vb⟩⟩ ctx =
          .err (.failedToCompleteComparison k.goName))
  ∧ (∀ b, Context.find ctx sym = some (.bool b) →
        Predicate.Eval ⟨sym, ⟨"=", .boolean vb⟩⟩ ctx = .ok (decide (b = vb))
      ∧ Predicate.Eval ⟨sym, ⟨"<>", .boolean vb⟩⟩ ctx = .ok (decide (b ≠ vb)))
  ∧ (∀ s, Context.find ctx sym = some (.str s) →
        ((∀ b, parseBool s = some b →
          Predicate.Eval ⟨sym, ⟨"=", .boolean vb⟩⟩ ctx = .ok (decide (b = vb)))
      ∧ (parseBool s = none →
          Predicate.Eval ⟨sym, ⟨"=", .boolean vb⟩⟩ ctx = .err (.notBoolValue s))))
  ∧ (∀ v o, Context.find ctx sym = some v →
      (o = ">" ∨ o = ">=" ∨ o = "<" ∨ o = "<=") →
        Predicate.Eval ⟨sym, ⟨o, .boolean vb⟩⟩ ctx = .err .booleanNotGreaterLess) := by
  refine ⟨?_, ?_, ?_, ?_, ?_⟩
  · intro x h
    refine ⟨?_, ?_, ?_⟩ <;>
      · simp only [Predicate.Eval, h, evalCompare]
        norm_num
        cases hd : decide (x = 0) <;> cases vb <;> simp_all
  · intro k x hk h
    constructor <;>
      · cases k <;> simp_all [Predicate.Eval, evalCompare]
  · intro b h
    constructor <;> simp [Predicate.Eval, h, evalCompare]
  · intro s h
    constructor
    · intro b hb
      simp [Predicate.Eval, h, evalCompare, hb]
    · intro hb
      simp [Predicate.Eval, h, evalCompare, hb]
  · intro v o h ho
    rcases ho with rfl | rfl | rfl | rfl <;> simp [Predicate.Eval, h, evalCompare]

/-- Witness for C6 (amended): an `int` field of value 7 is truthy, so
`a = TRUE` matches; an ordering operator against `TRUE` errors. -/
theorem c6_boolean_value_amended_witness :
    Predicate.Eval ⟨"a", ⟨"=", .boolean true⟩⟩ [("a", .num .int 7)] = .ok true
  ∧ Predicate.Eval ⟨"a", ⟨">", .boolean true⟩⟩ [("a", .num .int 7)] =
      .err .booleanNotGreaterLess := by
  constructor
  · have h := ((c6_boolean_value_amended "a" [("a", .num .int 7)] true).1 7 (by decide)).1
    simpa using h
  · exact (c6_boolean_value_amended "a" [("a", .num .int 7)] true).2.2.2.2
      (.num .int 7) ">" (by decide) (Or.inl rfl)

/-- C8, counterexample: the claim states that a NULL-literal comparison on a
present field yields the generic "failed to complete comparison" error; the
code instead hits the `default` arm of the value-kind switch and returns
the "unknown value type" error. -/
theorem c8_null_error_counterexample :
    Predicate.Eval ⟨"a", ⟨"=", .null⟩⟩ [("a", .num .float64 1)] = .err .unknownValueType
  ∧ Predicate.Eval ⟨"a", ⟨"=", .null⟩⟩ [("a", .num .float64 1)] ≠
      .err (.failedToCompleteComparison "float64") := by
  decide

/-- C8, amended: for every predicate whose value is the NULL literal and
every record in which the field is present, evaluation with any of the
seven parsed operators returns the "unknown value type" error from that
operator's default value-kind arm (the NULL literal has no success-case
semantics for any operator). -/
theorem c8_null_unknown_value_amended (sym : String) (ctx : Context) (v : GoValue)
    (o : String) (hfind : Context.find ctx sym = some v)
    (ho : o = "=" ∨ o = "<>" ∨ o = "!=" ∨ o = ">" ∨ o = ">=" ∨ o = "<" ∨ o = "<=") :
    Predicate.Eval ⟨sym, ⟨o, .null⟩⟩ ctx = .err .unknownValueType := by
  rcases ho with rfl | rfl | rfl | rfl | rfl | rfl | rfl <;>
    simp [Predicate.Eval, hfind, evalCompare]

/-- Witness for C8 (amended): `a = NULL` against a record with `a` present
yields the "unknown value type" error. -/
theorem c8_null_unknown_value_amended_witness :
    Predicate.Eval ⟨"a", ⟨"=", .null⟩⟩ [("a", .str "x")] = .err .unknownValueType :=
  c8_null_unknown_value_amended "a" _ (.str "x") "=" (by decide) (Or.inl rfl)

/-- C4: comparing a field against a regex literal: with `=`, a string field
yields exactly the compiled matcher's verdict on the field value (the
matcher is unanchored `MatchString`, i.e. a match anywhere); `<>` and `!=`
yield its negation; a non-string field is the "cannot apply regex to
non-string value" type error for `=`, `<>` and `!=`; and every ordering
operator yields the "cannot use ... operator with regex pattern" error. -/
theorem c4_regex_semantics (sym : String) (r : RegexVal) (ctx : Context) :
    (∀ s, Context.find ctx sym = some (.str s) →
        Predicate.Eval ⟨sym, ⟨"=", .regex r⟩⟩ ctx = .ok (r.Regexp s)
      ∧ Predicate.Eval ⟨sym, ⟨"<>", .regex r⟩⟩ ctx = .ok (!(r.Regexp s))
      ∧ Predicate.Eval ⟨sym, ⟨"!=", .regex r⟩⟩ ctx = .ok (!(r.Regexp s)))
  ∧ (∀ v, Context.find ctx sym = some v → (∀ s, v ≠ .str s) →
        Predicate.Eval ⟨sym, ⟨"=", .regex r⟩⟩ ctx =
          .err (.cannotApplyRegexToNonString v.goType)
      ∧ Predicate.Eval ⟨sym, ⟨"<>", .regex r⟩⟩ ctx =
          .err (.cannotApplyRegexToNonString v.goType)
      ∧ Predicate.Eval ⟨sym, ⟨"!=", .regex r⟩⟩ ctx =
          .err (.cannotApplyRegexToNonString v.goType))
  ∧ (∀ v o, Context.find ctx sym = some v →
      (o = ">" ∨ o = ">=" ∨ o = "<" ∨ o = "<=") →
        Predicate.Eval ⟨sym, ⟨o, .regex r⟩⟩ ctx = .err (.cannotUseOpWithRegex o)) := by
  refine ⟨?_, ?_, ?_⟩
  · intro s h
    refine ⟨?_, ?_, ?_⟩ <;> simp [Predicate.Eval, h, evalCompare]
  · intro v h hne
    cases v with
    | str s => exact absurd rfl (hne s)
    | num k x => exact ⟨by simp [Predicate.Eval, h, evalCompare],
        by simp [Predicate.Eval, h, evalCompare], by simp [Predicate.Eval, h, evalCompare]⟩
    | bool b => exact ⟨by simp [Predicate.Eval, h, evalCompare],
        by simp [Predicate.Eval, h, evalCompare], by simp [Predicate.Eval, h, evalCompare]⟩
  · intro v o h ho
    rcases ho with rfl | rfl | rfl | rfl <;> simp [Predicate.Eval, h, evalCompare]

/-- Witness for C4: a matcher for the pattern recognising exactly "John"
matches the field value "John" under `=`; a numeric field is a type error
under `=`; an ordering operator is rejected. -/
theorem c4_regex_semantics_witness :
    Predicate.Eval ⟨"name", ⟨"=", .regex ⟨"John", fun s => decide (s = "John")⟩⟩⟩
      [("name", .str "John")] = .ok true
  ∧ Predicate.Eval ⟨"age", ⟨"=", .regex ⟨"John", fun s => decide (s = "John")⟩⟩⟩
      [("age", .num .float64 30)] = .err (.cannotApplyRegexToNonString "float64")
  ∧ Predicate.Eval ⟨"name", ⟨">", .regex ⟨"John", fun s => decide (s = "John")⟩⟩⟩
      [("name", .str "John")] = .err (.cannotUseOpWithRegex ">") := by
  refine ⟨?_, ?_, ?_⟩
  · have h := ((c4_regex_semantics "name" ⟨"John", fun s => decide (s = "John")⟩
      [("name", .str "John")]).1 "John" (by decide)).1
    simpa using h
  · exact ((c4_regex_semantics "age" ⟨"John", fun s => decide (s = "John")⟩
      [("age", .num .float64 30)]).2.1 (.num .float64 30) (by decide)
      (fun s hs => by simp at hs)).1
  · exact (c4_regex_semantics "name" ⟨"John", fun s => decide (s = "John")⟩
      [("name", .str "John")]).2.2 (.str "John") ">" (by decide) (Or.inl rfl)

/-- C5, counterexample: the claim includes the close brace in the set of
counted repetition operators; the source counts only asterisk, plus, open
brace, question mark and vertical bar.  A pattern of 21 close braces has 21
occurrences of the claim's operator set, yet `Capture` accepts it and
produces a matcher (the compile oracle models `regexp.Compile`, which
succeeds on this pattern — each unmatched close brace is a literal). -/
theorem c5_brace_complexity_counterexample :
    specComplexity braces21 > 20
  ∧ codeComplexity braces21 = 0
  ∧ RegexVal.Capture [raw21] compileOk = .ok ⟨braces21, fun _ => false⟩ := by
  refine ⟨by decide, by decide, rfl⟩

/-- C5, amended: with the complexity score as the source computes it
(occurrences of asterisk, plus, open brace, question mark and vertical bar —
the close brace is not counted), `Capture` on a raw literal of admissible
shape fails with the descriptive length error when the unescaped pattern
exceeds 1000 characters, fails with the descriptive complexity error when
the score exceeds 20, fails with the timeout error when compilation misses
the ≈100ms deadline, and every successfully captured regex value carries
the matcher delivered by the compiler together with patterns inside both
limits. -/
theorem c5_regex_limits_amended (raw : String) (compile : String → CompileOutcome) :
    (3 ≤ raw.length → MaxRegexPatternLength < (extractPattern raw).length →
      RegexVal.Capture [raw] compile = .error (.regexTooLong (extractPattern raw).length))
  ∧ (3 ≤ raw.length → (extractPattern raw).length ≤ MaxRegexPatternLength →
      MaxRegexComplexity < codeComplexity (extractPattern raw) →
      RegexVal.Capture [raw] compile =
        .error (.regexTooComplex (codeComplexity (extractPattern raw))))
  ∧ (3 ≤ raw.length → (extractPattern raw).length ≤ MaxRegexPatternLength →
      codeComplexity (extractPattern raw) ≤ MaxRegexComplexity →
      compile (extractPattern raw) = .timeout →
      RegexVal.Capture [raw] compile = .error .regexCompileTimeout)
  ∧ (∀ r, RegexVal.Capture [raw] compile = .ok r →
      r.Pattern = extractPattern raw ∧ compile r.Pattern = .ok r.Regexp ∧
      r.Pattern.length ≤ MaxRegexPatternLength ∧
      codeComplexity r.Pattern ≤ MaxRegexComplexity) := by
  refine ⟨?_, ?_, ?_, ?_⟩
  · intro h3 hlen
    simp only [RegexVal.Capture]
    rw [if_neg (by omega), if_pos (by omega)]
  · intro h3 hlen hcx
    simp only [RegexVal.Capture]
    rw [if_neg (by omega), if_neg (by omega), if_pos (by omega)]
  · intro h3 hlen hcx htimeout
    simp only [RegexVal.Capture]
    rw [if_neg (by omega), if_neg (by omega), if_neg (by omega), htimeout]
  · intro r h
    simp only [RegexVal.Capture] at h
    split at h
    · exact absurd h (by simp)
    · rename_i h3
      split at h
      · exact absurd h (by simp)
      · rename_i hlen
        split at h
        · exact absurd h (by simp)
        · rename_i hcx
          split at h
          · rename_i m hm
            obtain rfl : RegexVal.mk (extractPattern raw) m = r := by
              simpa using h
            exact ⟨rfl, hm,
              (by omega : (extractPattern raw).length ≤ MaxRegexPatternLength),
              (by omega : codeComplexity (extractPattern raw) ≤ MaxRegexComplexity)⟩
          · exact absurd h (by simp)
          · exact absurd h (by simp)

/-- Witness for C5 (amended): a pattern of 21 asterisks is over the
complexity cap and is rejected with the descriptive complexity error. -/
theorem c5_regex_limits_amended_witness :
    RegexVal.Capture [stars21raw] compileOk = .error (.regexTooComplex 21) := by
  have h := (c5_regex_limits_amended stars21raw compileOk).2.1
    (by decide) (by decide) (by decide)
  have hc : codeComplexity (extractPattern stars21raw) = 21 := by decide
  rw [hc] at h
  exact h

/-- C10: calling `Matcher.Test` with a nil record pointer returns the
"nil context provided" error (paired with `false`) before any evaluation,
for every compiled matcher. -/
theorem c10_nil_record (m : Matcher) : m.Test none = .err .nilContext := rfl

/-- C9: `TestWithContext` checks the cancellation signal exactly once at the
call boundary: a context that is already done yields `(false, ctx.Err())`
without evaluating the expression (the result is a constant independent of
the matcher and the record), and otherwise the call returns exactly the
result of `Test` on the same record. -/
theorem c9_test_with_context (m : Matcher) (g : GoContext) (c : Option Context) :
    (g.done = true → m.TestWithContext (some g) c = .err .ctxCanceled)
  ∧ (g.done = false → m.TestWithContext (some g) c = m.Test c) := by
  constructor <;> intro h <;> simp [Matcher.TestWithContext, h]

/-- Witness for C9: a cancelled context returns the cancellation error; a
live context delegates to `Test`. -/
theorem c9_test_with_context_witness :
    Matcher.TestWithContext ⟨.mk [], false⟩ (some ⟨true⟩) (some []) = .err .ctxCanceled
  ∧ Matcher.TestWithContext ⟨.mk [], false⟩ (some ⟨false⟩) (some []) =
      Matcher.Test ⟨.mk [], false⟩ (some []) :=
  ⟨(c9_test_with_context _ _ _).1 rfl, (c9_test_with_context _ _ _).2 rfl⟩

end matcher
